import Mathlib

/-!
Verification of the Redis-backed cache exercise (`0x02-redis_basic`):
a shallow embedding of `exercise.py` (the `Cache` class, the
`count_calls` and `call_history` decorators and `replay`) and of
`web.py` (the `cache_page` decorator and `get_page`), together with
theorems about the embedded definitions.

Modelling conventions:
* Redis byte strings are modelled as Lean `String` (all values that
  occur in this development are valid UTF-8, so decoding is identity).
* Python exceptions and Redis command errors are modelled with an
  explicit error component: a state-changing operation returns
  `RState × Except PyErr α`, keeping the state reached before the
  error was raised (a raised exception does not roll back writes that
  already reached the external store).
* `uuid.uuid4()` is nondeterministic; each call to the embedded store
  operation takes the freshly generated key as an explicit argument.
* `requests.get(url).text` is an external collaborator, modelled as an
  uninterpreted function `fetch : String → String`.
* A Python `float` is carried by the `repr` string the Redis client
  serializes it to (`repr(3.14)` is `'3.14'`; the client sends
  `repr(value)` for both `int` and `float`).  `repr` is injective on
  floats, so equality of the carried strings coincides with equality
  of the floats.  The source never computes with a stored float — it
  serializes one on `store` and hands back bytes, text or an integer
  on read (there is no float-returning accessor) — so this
  identity-and-serialization view covers everything the code does
  with floats.
-/

/-- Errors that can be raised to a caller: a Redis WRONGTYPE reply
(command used against a key holding the wrong kind of value), a Redis
"value is not an integer" reply from `INCR`, a Python `ValueError`
(the spec's `DecodeError`, raised by `int()` on malformed text), and a
stand-in for the wrapped operation failing (the spec's
`StoreUnavailable`). -/
inductive PyErr where
  | wrongType
  | notInteger
  | valueError
  | storeUnavailable
deriving DecidableEq

/-- A value held at a Redis key: either a byte string or a list. -/
inductive RVal where
  | str (s : String)
  | list (l : List String)
deriving DecidableEq

/-- The state of the Redis database: the value at each key, and the
remaining time-to-live of each key (`none` when the key has no
expiration).  Passage of time is not modelled; `ttl` only records what
expiration, if any, was last attached to a key. -/
structure RState where
  data : String → Option RVal
  ttl : String → Option Nat

/-! ### Decimal rendering and parsing

`str(int)` in Python and the integer replies stored by Redis `INCR`
both use the canonical decimal form (optional leading minus sign, no
leading zeros).  `int()` in Python accepts an optional sign followed by
decimal digits (it additionally ignores surrounding whitespace and
underscores between digits, which never occur in any value of this
development and are not modelled).  Redis parses integers the same way
except that a leading plus sign is rejected. -/

/-- The decimal digit characters. -/
def digitToChar : Nat → Char
  | 0 => '0'
  | 1 => '1'
  | 2 => '2'
  | 3 => '3'
  | 4 => '4'
  | 5 => '5'
  | 6 => '6'
  | 7 => '7'
  | 8 => '8'
  | 9 => '9'
  | _ => '*'

/-- Inverse of `digitToChar`: the numeric value of a decimal digit. -/
def charToDigit (c : Char) : Option Nat :=
  if '0' ≤ c ∧ c ≤ '9' then some (c.toNat - '0'.toNat) else none

/-- Decimal digits of `n`, least significant first.  The first
argument is structural fuel; any `fuel > n` yields the digits. -/
def toRevDigits : Nat → Nat → List Char
  | 0, _ => []
  | fuel + 1, n =>
    if n < 10 then [digitToChar n]
    else digitToChar (n % 10) :: toRevDigits fuel (n / 10)

/-- The canonical decimal form of a natural number. -/
def natRepr (n : Nat) : String := ⟨(toRevDigits (n + 1) n).reverse⟩

/-- `str(int)` in Python: canonical decimal form of an integer. -/
def intRepr (n : Int) : String :=
  if n < 0 then "-" ++ natRepr n.natAbs else natRepr n.toNat

/-- Accumulating parse of a digit string; fails on any non-digit. -/
def parseDigitsAux (acc : Nat) : List Char → Option Nat
  | [] => some acc
  | c :: cs =>
    match charToDigit c with
    | some d => parseDigitsAux (acc * 10 + d) cs
    | none => none

/-- Parse a nonempty string of decimal digits. -/
def parseDigits (l : List Char) : Option Nat :=
  if l = [] then none else parseDigitsAux 0 l

/-- Python `int()` on text: optional sign, then decimal digits. -/
def pyParseInt (s : String) : Option Int :=
  match s.data with
  | [] => none
  | c :: rest =>
    if c = '-' then (parseDigits rest).map (fun n => -(n : Int))
    else if c = '+' then (parseDigits rest).map (fun n => (n : Int))
    else (parseDigits (c :: rest)).map (fun n => (n : Int))

/-- Redis integer parsing (`string2ll`): like Python `int()` but a
leading plus sign is rejected. -/
def redisParseInt (s : String) : Option Int :=
  match s.data with
  | [] => none
  | c :: rest =>
    if c = '-' then (parseDigits rest).map (fun n => -(n : Int))
    else (parseDigits (c :: rest)).map (fun n => (n : Int))

lemma charToDigit_digitToChar {d : Nat} (h : d < 10) :
    charToDigit (digitToChar d) = some d := by
  interval_cases d <;> rfl

lemma digitToChar_ne_minus {d : Nat} (h : d < 10) : digitToChar d ≠ '-' := by
  interval_cases d <;> decide

lemma digitToChar_ne_plus {d : Nat} (h : d < 10) : digitToChar d ≠ '+' := by
  interval_cases d <;> decide

lemma parseDigitsAux_append (acc : Nat) (l₁ l₂ : List Char) :
    parseDigitsAux acc (l₁ ++ l₂)
      = (parseDigitsAux acc l₁).bind (fun m => parseDigitsAux m l₂) := by
  induction l₁ generalizing acc with
  | nil => rfl
  | cons c cs ih =>
    simp only [List.cons_append, parseDigitsAux]
    cases charToDigit c with
    | none => rfl
    | some d => exact ih (acc * 10 + d)

lemma toRevDigits_ne_nil {fuel n : Nat} (h : 0 < fuel) :
    toRevDigits fuel n ≠ [] := by
  cases fuel with
  | zero => omega
  | succ f =>
    simp only [toRevDigits]
    split <;> simp

lemma mem_toRevDigits {fuel n : Nat} (h : n < fuel) :
    ∀ c ∈ toRevDigits fuel n, ∃ d, d < 10 ∧ c = digitToChar d := by
  induction fuel generalizing n with
  | zero => omega
  | succ f ih =>
    intro c hc
    simp only [toRevDigits] at hc
    split at hc
    · rename_i hlt
      simp at hc
      exact ⟨n, hlt, hc⟩
    · rename_i hge
      rcases List.mem_cons.mp hc with hc | hc
      · exact ⟨n % 10, Nat.mod_lt _ (by omega), hc⟩
      · exact ih (by
          have : n / 10 < n := Nat.div_lt_self (by omega) (by omega)
          omega) c hc

lemma parseDigitsAux_toRevDigits (fuel : Nat) :
    ∀ n acc, n < fuel →
      parseDigitsAux acc ((toRevDigits fuel n).reverse)
        = some (acc * 10 ^ (toRevDigits fuel n).length + n) := by
  induction fuel with
  | zero => omega
  | succ f ih =>
    intro n acc hn
    by_cases hlt : n < 10
    · simp only [toRevDigits, if_pos hlt, List.reverse_singleton,
        parseDigitsAux, charToDigit_digitToChar hlt, List.length_singleton]
      norm_num
    · have hdiv : n / 10 < n := Nat.div_lt_self (by omega) (by omega)
      have hdivf : n / 10 < f := by omega
      have hmod : n % 10 < 10 := Nat.mod_lt _ (by omega)
      simp only [toRevDigits, if_neg hlt, List.reverse_cons,
        parseDigitsAux_append, ih (n / 10) acc hdivf, Option.some_bind,
        parseDigitsAux, charToDigit_digitToChar hmod, List.length_cons]
      have hdm : n / 10 * 10 + n % 10 = n := by omega
      congr 1
      calc (acc * 10 ^ (toRevDigits f (n / 10)).length + n / 10) * 10 + n % 10
          = acc * (10 ^ (toRevDigits f (n / 10)).length * 10)
              + (n / 10 * 10 + n % 10) := by ring
        _ = acc * 10 ^ ((toRevDigits f (n / 10)).length + 1) + n := by
            rw [pow_succ, hdm]

lemma parseDigits_natRepr (n : Nat) :
    parseDigits ((toRevDigits (n + 1) n).reverse) = some n := by
  have hne : (toRevDigits (n + 1) n).reverse ≠ [] := by
    simp [toRevDigits_ne_nil (Nat.succ_pos n)]
  rw [parseDigits, if_neg hne]
  have := parseDigitsAux_toRevDigits (n + 1) n 0 (Nat.lt_succ_self n)
  simpa using this

lemma pyParseInt_natRepr (n : Nat) : pyParseInt (natRepr n) = some (n : Int) := by
  have hne : (toRevDigits (n + 1) n).reverse ≠ [] := by
    simp [toRevDigits_ne_nil (Nat.succ_pos n)]
  obtain ⟨c, rest, hcr⟩ := List.exists_cons_of_ne_nil hne
  have hc : c ∈ toRevDigits (n + 1) n := by
    rw [← List.mem_reverse, hcr]
    exact List.mem_cons_self _ _
  obtain ⟨d, hd10, hcd⟩ := mem_toRevDigits (Nat.lt_succ_self n) c hc
  have hdata : (natRepr n).data = c :: rest := hcr
  simp only [pyParseInt, hdata,
    if_neg (hcd ▸ digitToChar_ne_minus hd10),
    if_neg (hcd ▸ digitToChar_ne_plus hd10)]
  rw [← hcr, parseDigits_natRepr]
  rfl

lemma redisParseInt_natRepr (n : Nat) :
    redisParseInt (natRepr n) = some (n : Int) := by
  have hne : (toRevDigits (n + 1) n).reverse ≠ [] := by
    simp [toRevDigits_ne_nil (Nat.succ_pos n)]
  obtain ⟨c, rest, hcr⟩ := List.exists_cons_of_ne_nil hne
  have hc : c ∈ toRevDigits (n + 1) n := by
    rw [← List.mem_reverse, hcr]
    exact List.mem_cons_self _ _
  obtain ⟨d, hd10, hcd⟩ := mem_toRevDigits (Nat.lt_succ_self n) c hc
  have hdata : (natRepr n).data = c :: rest := hcr
  simp only [redisParseInt, hdata,
    if_neg (hcd ▸ digitToChar_ne_minus hd10)]
  rw [← hcr, parseDigits_natRepr]
  rfl

lemma pyParseInt_intRepr (n : Int) : pyParseInt (intRepr n) = some n := by
  rcases le_or_lt 0 n with h | h
  · rw [intRepr, if_neg (not_lt.mpr h), pyParseInt_natRepr,
      Int.toNat_of_nonneg h]
  · rw [intRepr, if_pos h]
    have hdata : ("-" ++ natRepr n.natAbs).data
        = '-' :: (natRepr n.natAbs).data := rfl
    have hd : (natRepr n.natAbs).data
        = (toRevDigits (n.natAbs + 1) n.natAbs).reverse := rfl
    simp only [pyParseInt, hdata, hd, parseDigits_natRepr]
    simp
    rw [abs_of_neg h, neg_neg]

lemma redisParseInt_intRepr (n : Int) : redisParseInt (intRepr n) = some n := by
  rcases le_or_lt 0 n with h | h
  · rw [intRepr, if_neg (not_lt.mpr h), redisParseInt_natRepr,
      Int.toNat_of_nonneg h]
  · rw [intRepr, if_pos h]
    have hdata : ("-" ++ natRepr n.natAbs).data
        = '-' :: (natRepr n.natAbs).data := rfl
    have hd : (natRepr n.natAbs).data
        = (toRevDigits (n.natAbs + 1) n.natAbs).reverse := rfl
    simp only [redisParseInt, hdata, hd, parseDigits_natRepr]
    simp
    rw [abs_of_neg h, neg_neg]

lemma natRepr_ne_empty (n : Nat) : natRepr n ≠ "" := by
  intro h
  have hdat : (natRepr n).data = [] := by rw [h]
  have : (toRevDigits (n + 1) n).reverse = [] := hdat
  exact toRevDigits_ne_nil (Nat.succ_pos n) (List.reverse_eq_nil_iff.mp this)

lemma intRepr_ne_empty (n : Int) : intRepr n ≠ "" := by
  rw [intRepr]
  split
  · intro h
    have hdat : ("-" ++ natRepr n.natAbs).data = [] := by rw [h]
    have : ('-' :: (natRepr n.natAbs).data : List Char) = [] := hdat
    simp at this
  · exact natRepr_ne_empty _

/-! ### The Store Client Adapter: the Redis commands used by the code

`exercise.py` uses `flushdb`, `set`, `get`, `incr`, `rpush` and
`lrange(key, 0, -1)`; `web.py` additionally uses `setex`.  Read-only
commands return `Except PyErr α`; writing commands return the new
state paired with the command's reply. -/

/-- `FLUSHDB`: the empty database (run by `Cache.__init__`). -/
def flushdb : RState := ⟨fun _ => none, fun _ => none⟩

/-- Write a byte-string value at a key without touching its
time-to-live (the update performed by `INCR`). -/
def dataSet (st : RState) (k v : String) : RState :=
  ⟨fun q => if q = k then some (RVal.str v) else st.data q, st.ttl⟩

/-- `SET key value`: stores a byte string and discards any
time-to-live the key had. -/
def rset (st : RState) (k v : String) : RState :=
  ⟨fun q => if q = k then some (RVal.str v) else st.data q,
   fun q => if q = k then none else st.ttl q⟩

/-- Replace the list stored at a key (the update performed by
`RPUSH`, which keeps the key's time-to-live). -/
def rsetList (st : RState) (k : String) (l : List String) : RState :=
  ⟨fun q => if q = k then some (RVal.list l) else st.data q, st.ttl⟩

/-- `SETEX key seconds value`: stores a byte string with an
expiration. -/
def rsetex (st : RState) (k : String) (seconds : Nat) (v : String) : RState :=
  ⟨fun q => if q = k then some (RVal.str v) else st.data q,
   fun q => if q = k then some seconds else st.ttl q⟩

/-- `GET key`: the byte string at a key, absent if the key does not
exist, and a WRONGTYPE error if the key holds a list. -/
def rget (st : RState) (k : String) : Except PyErr (Option String) :=
  match st.data k with
  | none => Except.ok none
  | some (RVal.str s) => Except.ok (some s)
  | some (RVal.list _) => Except.error PyErr.wrongType

/-- `INCR key`: parses the stored value as an integer (an absent key
counts as 0), stores its successor and replies with it. -/
def rincr (st : RState) (k : String) : RState × Except PyErr Int :=
  match st.data k with
  | none => (dataSet st k (intRepr 1), Except.ok 1)
  | some (RVal.str s) =>
    match redisParseInt s with
    | some n => (dataSet st k (intRepr (n + 1)), Except.ok (n + 1))
    | none => (st, Except.error PyErr.notInteger)
  | some (RVal.list _) => (st, Except.error PyErr.wrongType)

/-- `RPUSH key value`: appends to the list at a key, creating a
one-element list when the key is absent; replies with the new
length. -/
def rpush (st : RState) (k v : String) : RState × Except PyErr Nat :=
  match st.data k with
  | none => (rsetList st k [v], Except.ok 1)
  | some (RVal.list l) => (rsetList st k (l ++ [v]), Except.ok (l.length + 1))
  | some (RVal.str _) => (st, Except.error PyErr.wrongType)

/-- `LRANGE key 0 -1`: the whole list at a key; an absent key is the
empty list. -/
def lrangeAll (st : RState) (k : String) : Except PyErr (List String) :=
  match st.data k with
  | none => Except.ok []
  | some (RVal.list l) => Except.ok l
  | some (RVal.str _) => Except.error PyErr.wrongType

@[simp] lemma flushdb_data (k : String) : flushdb.data k = none := rfl

@[simp] lemma dataSet_data_self (st : RState) (k v : String) :
    (dataSet st k v).data k = some (RVal.str v) := by simp [dataSet]

lemma dataSet_data_of_ne {q k : String} (st : RState) (v : String)
    (h : q ≠ k) : (dataSet st k v).data q = st.data q := by
  simp [dataSet, h]

@[simp] lemma rset_data_self (st : RState) (k v : String) :
    (rset st k v).data k = some (RVal.str v) := by simp [rset]

lemma rset_data_of_ne {q k : String} (st : RState) (v : String)
    (h : q ≠ k) : (rset st k v).data q = st.data q := by
  simp [rset, h]

@[simp] lemma rsetList_data_self (st : RState) (k : String) (l : List String) :
    (rsetList st k l).data k = some (RVal.list l) := by simp [rsetList]

lemma rsetList_data_of_ne {q k : String} (st : RState) (l : List String)
    (h : q ≠ k) : (rsetList st k l).data q = st.data q := by
  simp [rsetList, h]

@[simp] lemma rsetex_data_self (st : RState) (k : String) (sec : Nat)
    (v : String) : (rsetex st k sec v).data k = some (RVal.str v) := by
  simp [rsetex]

@[simp] lemma rsetex_ttl_self (st : RState) (k : String) (sec : Nat)
    (v : String) : (rsetex st k sec v).ttl k = some sec := by
  simp [rsetex]

lemma rsetex_data_of_ne {q k : String} (st : RState) (sec : Nat) (v : String)
    (h : q ≠ k) : (rsetex st k sec v).data q = st.data q := by
  simp [rsetex, h]

/-! ### The Typed Cache (`exercise.py`, class `Cache`) -/

/-- A value accepted by `Cache.store`: the members of the union type
`str | bytes | int | float`.  The four constructors model the four
Python runtime types; a float is carried by its `repr` string per
the module docstring.  Equality between a `bytes` or `str` value and
a `float` value is `False` in Python, matching the distinct
constructors (the numeric cross-type equality `3 == 3.0` is not
exercised anywhere in this development: no accessor returns a float,
and `get_int` raises on every float `repr`, which always contains a
`.` or an `e`). -/
inductive Value where
  | str (s : String)
  | bytes (b : String)
  | int (n : Int)
  | float (r : String)
deriving DecidableEq

/-- The byte string the Redis client sends for a value: `str` is
UTF-8 encoded (identity here), `bytes` is sent as-is, `int` and
`float` are sent as `repr(value)` — the decimal form for an `int`,
the carried `repr` string for a `float`. -/
def serialize : Value → String
  | Value.str s => s
  | Value.bytes b => b
  | Value.int n => intRepr n
  | Value.float r => r

namespace Cache

/-- The body of `Cache.store` (without decorators): writes the value
under the freshly generated key and returns the key.  The key
generated by `uuid.uuid4()` is passed as the `key` argument. -/
def store (st : RState) (data : Value) (key : String) : RState × String :=
  ((rset st key (serialize data)), key)

/-- `Cache.get(key)` with no conversion function: the raw bytes, or
`None` when the key does not exist. -/
def get (st : RState) (key : String) : Except PyErr (Option String) :=
  rget st key

/-- `Cache.get(key, fn)` with a conversion function: the bytes are
read first; `None` is returned when the key does not exist (`fn` is
not applied); otherwise the result of `fn`, whose own failure
propagates. -/
def getFn {α : Type} (st : RState) (key : String)
    (fn : String → Except PyErr α) : Except PyErr (Option α) :=
  match rget st key with
  | Except.error e => Except.error e
  | Except.ok none => Except.ok none
  | Except.ok (some v) =>
    match fn v with
    | Except.error e => Except.error e
    | Except.ok a => Except.ok (some a)

/-- The conversion function of `Cache.get_str`:
`lambda d: d.decode('utf-8') if d else None`.  UTF-8 decoding is the
identity on the modelled byte strings; empty bytes are falsy, giving
`None`. -/
def strFn (d : String) : Except PyErr (Option String) :=
  Except.ok (if d = "" then none else some d)

/-- The conversion function of `Cache.get_int`:
`lambda d: int(d) if d else None`.  `int()` raises `ValueError` on
text that does not parse; empty bytes are falsy, giving `None`. -/
def intFn (d : String) : Except PyErr (Option Int) :=
  if d = "" then Except.ok none
  else
    match pyParseInt d with
    | some n => Except.ok (some n)
    | none => Except.error PyErr.valueError

/-- `Cache.get_str`: `self.get(key, fn=lambda d: ...)`.  The `None`
produced by the conversion function and the `None` produced by an
absent key are the same Python value, hence the `Option.join`. -/
def get_str (st : RState) (key : String) : Except PyErr (Option String) :=
  (getFn st key strFn).map Option.join

/-- `Cache.get_int`: `self.get(key, fn=lambda d: ...)`. -/
def get_int (st : RState) (key : String) : Except PyErr (Option Int) :=
  (getFn st key intFn).map Option.join

end Cache

/-! ### Call Instrumentation (`count_calls`, `call_history`) -/

/-- Python `repr` of a stored value, as it appears inside
`str(args)`: `repr` of text wraps it in single quotes, `repr` of
bytes adds a `b` prefix, `repr` of an integer is its decimal form,
`repr` of a float is the `repr` string it carries.
(Escaping of quotes and non-printable characters inside the text is
not modelled; no value in this development needs it.) -/
def pyRepr : Value → String
  | Value.str s => "'" ++ s ++ "'"
  | Value.bytes b => "b'" ++ b ++ "'"
  | Value.int n => intRepr n
  | Value.float r => r

/-- `str(args)` for the one-element positional-argument tuple a call
`cache.store(data)` produces. -/
def strArgs (v : Value) : String := "(" ++ pyRepr v ++ ",)"

/-- The `count_calls` decorator: increments the counter at the
method's qualified name, then invokes the method.  An error from
`INCR` propagates and the method is never entered. -/
def count_calls {A : Type} (qualname : String)
    (method : RState → A → RState × Except PyErr String) :
    RState → A → RState × Except PyErr String :=
  fun st v =>
    let p := rincr st qualname
    match p.2 with
    | Except.error e => (p.1, Except.error e)
    | Except.ok _ => method p.1 v

/-- The `call_history` decorator: appends `render v` (modelling
`str(args)`) to `<qualname>:inputs`, invokes the method, appends the
result (`str(output)`, identity on the string result) to
`<qualname>:outputs`, and returns the result.  An error at any step
propagates, keeping the writes already made. -/
def call_history {A : Type} (qualname : String) (render : A → String)
    (method : RState → A → RState × Except PyErr String) :
    RState → A → RState × Except PyErr String :=
  fun st v =>
    let p := rpush st (qualname ++ ":inputs") (render v)
    match p.2 with
    | Except.error e => (p.1, Except.error e)
    | Except.ok _ =>
      let q := method p.1 v
      match q.2 with
      | Except.error e => (q.1, Except.error e)
      | Except.ok out =>
        let r := rpush q.1 (qualname ++ ":outputs") out
        match r.2 with
        | Except.error e => (r.1, Except.error e)
        | Except.ok _ => (r.1, Except.ok out)

/-- `Cache.store` as a wrapped method (it always succeeds: `SET`
never errors). -/
def storeMethod (key : String) : RState → Value → RState × Except PyErr String :=
  fun st v => ((Cache.store st v key).1, Except.ok (Cache.store st v key).2)

/-- A wrapped operation that raises before performing any effect,
modelling the store becoming unavailable inside the method body. -/
def failingStore : RState → Value → RState × Except PyErr String :=
  fun st _ => (st, Except.error PyErr.storeUnavailable)

/-- The decorated `Cache.store`:
`@count_calls` over `@call_history` over the method body, with
qualified name `"Cache.store"`. -/
def instrumented (inner : RState → Value → RState × Except PyErr String) :
    RState → Value → RState × Except PyErr String :=
  count_calls "Cache.store" (call_history "Cache.store" strArgs inner)

/-- One top-level call to the decorated `cache.store(data)`: the
value passed, the key `uuid.uuid4()` generated for it, and whether
the wrapped operation succeeds (`ok = false` models the wrapped
method raising). -/
structure Call where
  data : Value
  key : String
  ok : Bool
deriving DecidableEq

/-- The state left by one call to the decorated store; a raised
exception is caught by the caller, so the state persists across
calls. -/
def stepCall (st : RState) (c : Call) : RState :=
  (instrumented (if c.ok then storeMethod c.key else failingStore) st c.data).1

/-- The state after a sequence of top-level calls to the decorated
store, starting from `st`. -/
def runCalls (st : RState) (cs : List Call) : RState :=
  cs.foldl stepCall st

/-- A generated key never collides with the three instrumentation
keys (true of every `uuid.uuid4()` string). -/
def GoodKey (k : String) : Prop :=
  k ≠ "Cache.store" ∧ k ≠ "Cache.store:inputs" ∧ k ≠ "Cache.store:outputs"

instance (k : String) : Decidable (GoodKey k) := by
  unfold GoodKey
  infer_instance

/-! ### The Replay Engine (`replay`) -/

/-- The call-count read at the start of `replay`:
`calls = redis.get(qualname)` followed by
`int(calls.decode("utf-8")) if calls else 0` inside
`try`/`except` (any parse failure gives 0; an absent or empty reply
is falsy and gives 0). -/
def readCount (st : RState) (q : String) : Except PyErr Int :=
  match rget st q with
  | Except.error e => Except.error e
  | Except.ok none => Except.ok 0
  | Except.ok (some s) =>
    Except.ok (if s = "" then 0 else (pyParseInt s).getD 0)

/-- `replay(method)`: the list of printed lines — the header with the
call count, then one line per positionally paired input/output
(`zip` stops at the shorter sequence). -/
def replay (st : RState) (q : String) : Except PyErr (List String) :=
  match readCount st q with
  | Except.error e => Except.error e
  | Except.ok cnt =>
    match lrangeAll st (q ++ ":inputs") with
    | Except.error e => Except.error e
    | Except.ok ins =>
      match lrangeAll st (q ++ ":outputs") with
      | Except.error e => Except.error e
      | Except.ok outs =>
        Except.ok ((q ++ " was called " ++ intRepr cnt ++ " times:") ::
          (List.zip ins outs).map
            (fun p => q ++ "(*" ++ p.1 ++ ") -> " ++ p.2))

/-! ### The Page Cache (`web.py`) -/

/-- The miss path of the `cache_page` wrapper: invoke the wrapped
function, then `setex` its result under `cached:<url>`. -/
def cachePageMiss (expiration : Nat)
    (func : RState → String → RState × Except PyErr String)
    (st : RState) (url : String) : RState × Except PyErr String :=
  let p := func st url
  match p.2 with
  | Except.error e => (p.1, Except.error e)
  | Except.ok content =>
    (rsetex p.1 ("cached:" ++ url) expiration content, Except.ok content)

/-- The `cache_page(expiration)` decorator: on a truthy (present and
non-empty) cached value, return it at once; otherwise run the wrapped
function and cache its result with the expiration. -/
def cache_page (expiration : Nat)
    (func : RState → String → RState × Except PyErr String) :
    RState → String → RState × Except PyErr String :=
  fun st url =>
    match rget st ("cached:" ++ url) with
    | Except.error e => (st, Except.error e)
    | Except.ok (some s) =>
      if s = "" then cachePageMiss expiration func st url
      else (st, Except.ok s)
    | Except.ok none => cachePageMiss expiration func st url

/-- The body of `get_page` (without the decorator): increments
`count:<url>` and fetches the page.  `requests.get(url).text` is the
uninterpreted function `fetch`. -/
def getPageBody (fetch : String → String) :
    RState → String → RState × Except PyErr String :=
  fun st url =>
    let p := rincr st ("count:" ++ url)
    match p.2 with
    | Except.error e => (p.1, Except.error e)
    | Except.ok _ => (p.1, Except.ok (fetch url))

/-- `get_page`, decorated with `cache_page(expiration=10)`. -/
def get_page (fetch : String → String) :
    RState → String → RState × Except PyErr String :=
  cache_page 10 (getPageBody fetch)

/-! ### Invariants of the instrumentation state -/

/-- The value Redis holds at the counter key after `n` increments:
absent before the first, the decimal form of `n` afterwards. -/
def cntVal : Nat → Option RVal
  | 0 => none
  | n + 1 => some (RVal.str (intRepr (n + 1)))

/-- The value Redis holds at a history key: absent before the first
append, the list afterwards. -/
def listVal : List String → Option RVal
  | [] => none
  | l => some (RVal.list l)

/-- The instrumentation keys of `Cache.store` hold the counter at `n`
and the two history lists. -/
def HistSt (st : RState) (n : Nat) (ins outs : List String) : Prop :=
  st.data "Cache.store" = cntVal n ∧
  st.data "Cache.store:inputs" = listVal ins ∧
  st.data "Cache.store:outputs" = listVal outs

lemma listVal_of_ne_nil {l : List String} (h : l ≠ []) :
    listVal l = some (RVal.list l) := by
  cases l with
  | nil => exact absurd rfl h
  | cons a t => rfl

lemma rincr_cntVal {st : RState} {k : String} {n : Nat}
    (h : st.data k = cntVal n) :
    rincr st k = (dataSet st k (intRepr (n + 1)), Except.ok ((n : Int) + 1)) := by
  cases n with
  | zero =>
    simp only [cntVal] at h
    simp [rincr, h]
  | succ m =>
    simp only [cntVal] at h
    have hc : ((m + 1 : Nat) : Int) + 1 = ((m + 1 + 1 : Nat) : Int) := by
      push_cast
      ring
    simp [rincr, h, redisParseInt_intRepr, hc]

lemma rpush_listVal {st : RState} {k : String} {l : List String}
    (h : st.data k = listVal l) (v : String) :
    rpush st k v = (rsetList st k (l ++ [v]), Except.ok (l.length + 1)) := by
  cases l with
  | nil =>
    simp only [listVal] at h
    simp [rpush, h]
  | cons a t =>
    simp only [listVal] at h
    simp [rpush, h]

lemma lrangeAll_listVal {st : RState} {k : String} {l : List String}
    (h : st.data k = listVal l) : lrangeAll st k = Except.ok l := by
  cases l with
  | nil =>
    simp only [listVal] at h
    simp [lrangeAll, h]
  | cons a t =>
    simp only [listVal] at h
    simp [lrangeAll, h]

lemma readCount_cntVal {st : RState} {q : String} {n : Nat}
    (h : st.data q = cntVal n) : readCount st q = Except.ok (n : Int) := by
  cases n with
  | zero =>
    simp only [cntVal] at h
    simp [readCount, rget, h]
  | succ m =>
    simp only [cntVal] at h
    have hg : rget st q = Except.ok (some (intRepr ((m + 1 : Nat) : Int))) := by
      simp [rget, h]
    simp only [readCount, hg, if_neg (intRepr_ne_empty ((m + 1 : Nat) : Int)),
      pyParseInt_intRepr, Option.getD_some]

/-- How one top-level call to the decorated `Cache.store` behaves on
a state whose instrumentation keys are well-formed: the call returns
the generated key (or the wrapped operation's error), the counter
always advances, the input record is always appended, and the output
record is appended exactly when the wrapped operation succeeded, in
which case the value now sits under the generated key. -/
lemma instrumented_spec (st : RState) (c : Call) (n : Nat)
    (ins outs : List String) (hk : GoodKey c.key) (h : HistSt st n ins outs) :
    (instrumented (if c.ok then storeMethod c.key else failingStore) st c.data).2
        = (if c.ok then Except.ok c.key
           else Except.error PyErr.storeUnavailable) ∧
    HistSt (instrumented (if c.ok then storeMethod c.key else failingStore) st c.data).1
        (n + 1) (ins ++ [strArgs c.data])
        (outs ++ if c.ok then [c.key] else []) ∧
    (c.ok = true →
      ((instrumented (if c.ok then storeMethod c.key else failingStore) st c.data).1).data c.key
        = some (RVal.str (serialize c.data))) := by
  obtain ⟨hc, hi, ho⟩ := h
  obtain ⟨hk1, hk2, hk3⟩ := hk
  have e1 := rincr_cntVal hc
  set st1 := dataSet st "Cache.store" (intRepr (n + 1)) with hst1
  have h1i : st1.data "Cache.store:inputs" = listVal ins := by
    rw [hst1, dataSet_data_of_ne st _ (by decide)]
    exact hi
  have e2 := rpush_listVal h1i (strArgs c.data)
  set st2 := rsetList st1 "Cache.store:inputs" (ins ++ [strArgs c.data]) with hst2
  have h2cnt : st2.data "Cache.store" = some (RVal.str (intRepr (n + 1))) := by
    rw [hst2, rsetList_data_of_ne st1 _ (by decide), hst1, dataSet_data_self]
  have h2in : st2.data "Cache.store:inputs"
      = some (RVal.list (ins ++ [strArgs c.data])) := by
    rw [hst2, rsetList_data_self]
  have h2out : st2.data "Cache.store:outputs" = listVal outs := by
    rw [hst2, rsetList_data_of_ne st1 _ (by decide), hst1,
      dataSet_data_of_ne st _ (by decide)]
    exact ho
  have hik : ("Cache.store" ++ ":inputs" : String) = "Cache.store:inputs" := rfl
  have hot : ("Cache.store" ++ ":outputs" : String) = "Cache.store:outputs" := rfl
  cases hok : c.ok with
  | false =>
    have hred : instrumented failingStore st c.data
        = (st2, Except.error PyErr.storeUnavailable) := by
      simp [instrumented, count_calls, call_history, hik, e1, e2, failingStore]
    simp only [Bool.false_eq_true, if_false, hred, List.append_nil]
    refine ⟨trivial, ⟨?_, ?_, ?_⟩, False.elim⟩
    · rw [h2cnt]
      rfl
    · rw [h2in, listVal_of_ne_nil (by simp)]
    · exact h2out
  | true =>
    have e3 : storeMethod c.key st2 c.data
        = (rset st2 c.key (serialize c.data), Except.ok c.key) := rfl
    set st3 := rset st2 c.key (serialize c.data) with hst3
    have h3out : st3.data "Cache.store:outputs" = listVal outs := by
      rw [hst3, rset_data_of_ne st2 _ (Ne.symm hk3)]
      exact h2out
    have e4 := rpush_listVal h3out c.key
    set st4 := rsetList st3 "Cache.store:outputs" (outs ++ [c.key]) with hst4
    have hred : instrumented (storeMethod c.key) st c.data
        = (st4, Except.ok c.key) := by
      simp [instrumented, count_calls, call_history, hik, hot, e1, e2, e3, e4]
    simp only [eq_self_iff_true, if_true, hred]
    refine ⟨trivial, ⟨?_, ?_, ?_⟩, fun _ => ?_⟩
    · rw [hst4, rsetList_data_of_ne st3 _ (by decide), hst3,
        rset_data_of_ne st2 _ (Ne.symm hk1), h2cnt]
      rfl
    · rw [hst4, rsetList_data_of_ne st3 _ (by decide), hst3,
        rset_data_of_ne st2 _ (Ne.symm hk2), h2in,
        listVal_of_ne_nil (by simp)]
    · rw [hst4, rsetList_data_self, listVal_of_ne_nil (by simp)]
    · rw [hst4, rsetList_data_of_ne st3 _ hk3, hst3, rset_data_self]

/-- The instrumentation state after any sequence of top-level calls
to the decorated store from a fresh database: the counter holds the
number of calls entered, the inputs list has one entry per call (in
order), and the outputs list has one entry per successful call (in
order). -/
lemma runCalls_inv (cs : List Call) (h : ∀ c ∈ cs, GoodKey c.key) :
    HistSt (runCalls flushdb cs) cs.length
      (cs.map fun c => strArgs c.data)
      ((cs.filter fun c => c.ok).map fun c => c.key) := by
  induction cs using List.reverseRecOn with
  | nil => exact ⟨rfl, rfl, rfl⟩
  | append_singleton l a ih =>
    have hl : ∀ c ∈ l, GoodKey c.key := fun c hc => h c (by simp [hc])
    have ha : GoodKey a.key := h a (by simp)
    have hrun : runCalls flushdb (l ++ [a]) = stepCall (runCalls flushdb l) a := by
      simp [runCalls, List.foldl_append]
    have hspec := (instrumented_spec (runCalls flushdb l) a l.length
      (l.map fun c => strArgs c.data)
      ((l.filter fun c => c.ok).map fun c => c.key) ha (ih hl)).2.1
    rw [hrun]
    have hlen : (l ++ [a]).length = l.length + 1 := by simp
    have hmap : ((l ++ [a]).map fun c => strArgs c.data)
        = (l.map fun c => strArgs c.data) ++ [strArgs a.data] := by simp
    have hfil : (((l ++ [a]).filter fun c => c.ok).map fun c => c.key)
        = ((l.filter fun c => c.ok).map fun c => c.key)
            ++ if a.ok then [a.key] else [] := by
      rcases hco : a.ok with _ | _ <;>
        simp [List.filter_append, hco]
    rw [hlen, hmap, hfil]
    exact hspec

/-- One invocation of the decorated `cache.store(v)` in which
`uuid.uuid4()` returned `key`. -/
def storeCall (st : RState) (v : Value) (key : String) :
    RState × Except PyErr String :=
  instrumented (storeMethod key) st v

/-- Specification of one successful decorated store call: it returns
the generated key, leaves the value under that key, and extends the
instrumentation state. -/
lemma storeCall_spec (st : RState) (v : Value) (key : String) (n : Nat)
    (ins outs : List String) (h : HistSt st n ins outs) (hk : GoodKey key) :
    (storeCall st v key).2 = Except.ok key ∧
    ((storeCall st v key).1).data key = some (RVal.str (serialize v)) ∧
    HistSt (storeCall st v key).1 (n + 1) (ins ++ [strArgs v])
      (outs ++ [key]) := by
  have hs := instrumented_spec st ⟨v, key, true⟩ n ins outs hk h
  simp only [if_true] at hs
  exact ⟨hs.1, hs.2.2 trivial, hs.2.1⟩

/-! ### Claim theorems -/

/-- C8: for a key never produced by `store` (absent from the
database), `get` returns absent (`None`) without raising, and the
optional conversion function is never applied — the result is the
same `ok none` for every conversion function. -/
theorem get_missing_returns_absent {α : Type} (st : RState) (k : String)
    (fn : String → Except PyErr α) (h : st.data k = none) :
    Cache.get st k = Except.ok none ∧ Cache.getFn st k fn = Except.ok none := by
  constructor <;> simp [Cache.get, Cache.getFn, rget, h]

theorem get_missing_returns_absent_witness :
    flushdb.data "missing" = none ∧
    Cache.get flushdb "missing" = Except.ok none ∧
    Cache.getFn flushdb "missing" Cache.intFn = Except.ok none :=
  ⟨rfl,
   (get_missing_returns_absent flushdb "missing" Cache.intFn rfl).1,
   (get_missing_returns_absent flushdb "missing" Cache.intFn rfl).2⟩

/-- C10: a key holding the empty byte string is reported as absent
(`None`) by both typed accessors — neither the empty string nor an
error — so through `get_str`/`get_int` it cannot be told apart from a
missing key. -/
theorem typed_get_empty_value_absent (st : RState) (k : String)
    (h : st.data k = some (RVal.str "")) :
    Cache.get_str st k = Except.ok none ∧
    Cache.get_int st k = Except.ok none := by
  constructor <;>
    simp [Cache.get_str, Cache.get_int, Cache.getFn, Cache.strFn,
      Cache.intFn, rget, h, Except.map, Option.join]

theorem typed_get_empty_value_absent_witness :
    (rset flushdb "k" "").data "k" = some (RVal.str "") ∧
    Cache.get_str (rset flushdb "k" "") "k" = Except.ok none ∧
    Cache.get_int (rset flushdb "k" "") "k" = Except.ok none :=
  ⟨rfl,
   (typed_get_empty_value_absent (rset flushdb "k" "") "k" rfl).1,
   (typed_get_empty_value_absent (rset flushdb "k" "") "k" rfl).2⟩

/-- C5: `get_int` on a key holding non-empty text that does not parse
as an integer raises the decode failure (Python `ValueError`, the
spec's `DecodeError`) to the caller; it is not mapped to absent. -/
theorem get_int_nonnumeric_raises (st : RState) (k s : String)
    (h : st.data k = some (RVal.str s)) (hne : s ≠ "")
    (hp : pyParseInt s = none) :
    Cache.get_int st k = Except.error PyErr.valueError := by
  simp [Cache.get_int, Cache.getFn, Cache.intFn, rget, h, hne, hp,
    Except.map]

theorem get_int_nonnumeric_raises_witness :
    ((Cache.store flushdb (Value.str "abc") "k1").1).data "k1"
      = some (RVal.str "abc") ∧
    pyParseInt "abc" = none ∧
    Cache.get_int (Cache.store flushdb (Value.str "abc") "k1").1 "k1"
      = Except.error PyErr.valueError :=
  ⟨rfl, rfl,
   get_int_nonnumeric_raises (Cache.store flushdb (Value.str "abc") "k1").1
     "k1" "abc" rfl (by decide) rfl⟩

/-- C1 (counterexample), two refuting instances.  First, storing the
empty text value `""` succeeds and returns the key, but reading it
back with `get_str` (the identity-appropriate transform for text)
yields absent, not `""`.  Second, storing the float `3.14`
(serialized by the client as `repr(3.14)`, the bytes `b'3.14'`)
succeeds, but every transform the claim lists fails to return the
float: `get` with no transform returns the bytes `b'3.14'` — a bytes
value, not the float (`b'3.14' == 3.14` is `False` in Python) —
`get_str` returns the text `'3.14'` — a str, not the float — and
`get_int` raises `ValueError` (`int(b'3.14')` fails), so the claim's
universally quantified round-trip fails on floating-point values as
well. -/
theorem store_roundtrip_cex :
    (storeCall flushdb (Value.str "") "k0").2 = Except.ok "k0" ∧
    Cache.get_str (storeCall flushdb (Value.str "") "k0").1 "k0"
      = Except.ok none ∧
    (Except.ok none : Except PyErr (Option String)) ≠ Except.ok (some "") ∧
    (storeCall flushdb (Value.float "3.14") "kf").2 = Except.ok "kf" ∧
    Cache.get (storeCall flushdb (Value.float "3.14") "kf").1 "kf"
      = Except.ok (some "3.14") ∧
    Value.bytes "3.14" ≠ Value.float "3.14" ∧
    Cache.get_str (storeCall flushdb (Value.float "3.14") "kf").1 "kf"
      = Except.ok (some "3.14") ∧
    Value.str "3.14" ≠ Value.float "3.14" ∧
    Cache.get_int (storeCall flushdb (Value.float "3.14") "kf").1 "kf"
      = Except.error PyErr.valueError :=
  ⟨rfl, rfl, by simp, rfl, rfl, by decide, rfl, by decide, rfl⟩

/-- C1 (amended): for every non-empty text, binary, or integer value,
storing it with the decorated `Cache.store` (from a state whose
instrumentation keys are well-formed, with a generated key distinct
from those keys) and reading the returned key back with the
identity-appropriate transform returns the value exactly.  Empty text
and floats are excluded exactly because the counterexample refutes
them: stored empty text reads back as absent, and a stored float
reads back as bytes, text, or a `ValueError` — never the float. -/
theorem store_roundtrip :
    (∀ st s key n ins outs, HistSt st n ins outs → GoodKey key → s ≠ "" →
      Cache.get_str (storeCall st (Value.str s) key).1 key
        = Except.ok (some s)) ∧
    (∀ st b key n ins outs, HistSt st n ins outs → GoodKey key →
      Cache.get (storeCall st (Value.bytes b) key).1 key
        = Except.ok (some b)) ∧
    (∀ st m key n ins outs, HistSt st n ins outs → GoodKey key →
      Cache.get_int (storeCall st (Value.int m) key).1 key
        = Except.ok (some m)) := by
  refine ⟨?_, ?_, ?_⟩
  · intro st s key n ins outs h hk hne
    have hd := (storeCall_spec st (Value.str s) key n ins outs h hk).2.1
    simp [Cache.get_str, Cache.getFn, Cache.strFn, rget, hd, serialize, hne,
      Except.map, Option.join]
  · intro st b key n ins outs h hk
    have hd := (storeCall_spec st (Value.bytes b) key n ins outs h hk).2.1
    simp [Cache.get, rget, hd, serialize]
  · intro st m key n ins outs h hk
    have hd := (storeCall_spec st (Value.int m) key n ins outs h hk).2.1
    simp [Cache.get_int, Cache.getFn, Cache.intFn, rget, hd, serialize,
      intRepr_ne_empty m, pyParseInt_intRepr, Except.map, Option.join]

theorem store_roundtrip_witness :
    Cache.get_str (storeCall flushdb (Value.str "hi") "k1").1 "k1"
      = Except.ok (some "hi") ∧
    Cache.get (storeCall flushdb (Value.bytes "hello") "k2").1 "k2"
      = Except.ok (some "hello") ∧
    Cache.get_int (storeCall flushdb (Value.int 123) "k3").1 "k3"
      = Except.ok (some 123) :=
  ⟨store_roundtrip.1 flushdb "hi" "k1" 0 [] [] ⟨rfl, rfl, rfl⟩
      (by decide) (by decide),
   store_roundtrip.2.1 flushdb "hello" "k2" 0 [] [] ⟨rfl, rfl, rfl⟩
      (by decide),
   store_roundtrip.2.2 flushdb 123 "k3" 0 [] [] ⟨rfl, rfl, rfl⟩
      (by decide)⟩

/-- C2: after `N` successful calls to the decorated store, the lists
at `Cache.store:inputs` and `Cache.store:outputs` both have length
`N`, and position `i` holds the display string of the `i`-th call's
argument tuple and the identifier the `i`-th call returned, in call
order. -/
theorem history_pairing (cs : List Call)
    (hg : ∀ c ∈ cs, GoodKey c.key) (hok : ∀ c ∈ cs, c.ok = true) :
    ∃ ins outs : List String,
      lrangeAll (runCalls flushdb cs) "Cache.store:inputs" = Except.ok ins ∧
      lrangeAll (runCalls flushdb cs) "Cache.store:outputs" = Except.ok outs ∧
      ins.length = cs.length ∧ outs.length = cs.length ∧
      ∀ i (hi : i < cs.length),
        ins[i]? = some (strArgs (cs.get ⟨i, hi⟩).data) ∧
        outs[i]? = some ((cs.get ⟨i, hi⟩).key) := by
  obtain ⟨hcnt, hin, hout⟩ := runCalls_inv cs hg
  have hfil : cs.filter (fun c => c.ok) = cs :=
    List.filter_eq_self.mpr (by simpa using hok)
  rw [hfil] at hout
  refine ⟨cs.map (fun c => strArgs c.data), cs.map (fun c => c.key),
    lrangeAll_listVal hin, lrangeAll_listVal hout, by simp, by simp, ?_⟩
  intro i hi
  constructor <;> simp [List.getElem?_map, List.getElem?_eq_getElem, hi]

theorem history_pairing_witness :
    ∃ ins outs : List String,
      lrangeAll (runCalls flushdb
          [⟨Value.str "a", "k1", true⟩, ⟨Value.int 5, "k2", true⟩])
        "Cache.store:inputs" = Except.ok ins ∧
      lrangeAll (runCalls flushdb
          [⟨Value.str "a", "k1", true⟩, ⟨Value.int 5, "k2", true⟩])
        "Cache.store:outputs" = Except.ok outs ∧
      ins.length = ([⟨Value.str "a", "k1", true⟩,
        ⟨Value.int 5, "k2", true⟩] : List Call).length ∧
      outs.length = ([⟨Value.str "a", "k1", true⟩,
        ⟨Value.int 5, "k2", true⟩] : List Call).length ∧
      ∀ i (hi : i < ([⟨Value.str "a", "k1", true⟩,
          ⟨Value.int 5, "k2", true⟩] : List Call).length),
        ins[i]? = some (strArgs (([⟨Value.str "a", "k1", true⟩,
          ⟨Value.int 5, "k2", true⟩] : List Call).get ⟨i, hi⟩).data) ∧
        outs[i]? = some ((([⟨Value.str "a", "k1", true⟩,
          ⟨Value.int 5, "k2", true⟩] : List Call).get ⟨i, hi⟩).key) :=
  history_pairing [⟨Value.str "a", "k1", true⟩, ⟨Value.int 5, "k2", true⟩]
    (by decide) (by decide)

/-- C3: the counting wrapper increments the counter before invoking
the wrapped operation, so after any sequence of calls — successful or
failing — the counter at `Cache.store` equals the number of calls
entered, and it reads zero before any call. -/
theorem count_calls_counter (cs : List Call)
    (hg : ∀ c ∈ cs, GoodKey c.key) :
    readCount (runCalls flushdb cs) "Cache.store"
      = Except.ok (cs.length : Int) ∧
    readCount flushdb "Cache.store" = Except.ok 0 :=
  ⟨readCount_cntVal (runCalls_inv cs hg).1,
   readCount_cntVal (rfl : flushdb.data "Cache.store" = cntVal 0)⟩

theorem count_calls_counter_witness :
    readCount (runCalls flushdb
        [⟨Value.str "a", "k1", true⟩, ⟨Value.bytes "b", "k2", false⟩])
      "Cache.store"
      = Except.ok (([⟨Value.str "a", "k1", true⟩,
          ⟨Value.bytes "b", "k2", false⟩] : List Call).length : Int) ∧
    readCount flushdb "Cache.store" = Except.ok 0 :=
  count_calls_counter
    [⟨Value.str "a", "k1", true⟩, ⟨Value.bytes "b", "k2", false⟩]
    (by decide)

/-- C6: when the wrapped store raises after the history wrapper has
recorded the input, the inputs list grows by one entry while the
outputs list is unchanged — no error marker is appended and the input
record is not rolled back, so the two sequences fall out of sync. -/
theorem history_desync_on_failure (cs : List Call) (c : Call)
    (hg : ∀ x ∈ cs, GoodKey x.key) (hgc : GoodKey c.key)
    (hfail : c.ok = false) :
    ∃ ins outs : List String,
      lrangeAll (runCalls flushdb cs) "Cache.store:inputs"
        = Except.ok ins ∧
      lrangeAll (runCalls flushdb cs) "Cache.store:outputs"
        = Except.ok outs ∧
      lrangeAll (runCalls flushdb (cs ++ [c])) "Cache.store:inputs"
        = Except.ok (ins ++ [strArgs c.data]) ∧
      lrangeAll (runCalls flushdb (cs ++ [c])) "Cache.store:outputs"
        = Except.ok outs := by
  have h1 := runCalls_inv cs hg
  have h2 := runCalls_inv (cs ++ [c]) (by
    intro x hx
    rcases List.mem_append.mp hx with h | h
    · exact hg x h
    · simp at h
      subst h
      exact hgc)
  refine ⟨_, _, lrangeAll_listVal h1.2.1, lrangeAll_listVal h1.2.2, ?_, ?_⟩
  · have := lrangeAll_listVal h2.2.1
    simpa using this
  · have := lrangeAll_listVal h2.2.2
    simpa [List.filter_append, hfail] using this

theorem history_desync_on_failure_witness :
    ∃ ins outs : List String,
      lrangeAll (runCalls flushdb [⟨Value.str "a", "k1", true⟩])
        "Cache.store:inputs" = Except.ok ins ∧
      lrangeAll (runCalls flushdb [⟨Value.str "a", "k1", true⟩])
        "Cache.store:outputs" = Except.ok outs ∧
      lrangeAll (runCalls flushdb
          ([⟨Value.str "a", "k1", true⟩] ++ [⟨Value.int 7, "k2", false⟩]))
        "Cache.store:inputs"
        = Except.ok (ins ++ [strArgs (Value.int 7)]) ∧
      lrangeAll (runCalls flushdb
          ([⟨Value.str "a", "k1", true⟩] ++ [⟨Value.int 7, "k2", false⟩]))
        "Cache.store:outputs" = Except.ok outs :=
  history_desync_on_failure [⟨Value.str "a", "k1", true⟩]
    ⟨Value.int 7, "k2", false⟩ (by decide) (by decide) rfl

/-- C9: the decorated store returns exactly what the undecorated
store body would return — the freshly generated identifier — so the
two wrappers are transparent to the caller with respect to the return
value. -/
theorem wrappers_preserve_return (st : RState) (v : Value) (key : String)
    (n : Nat) (ins outs : List String) (h : HistSt st n ins outs)
    (hk : GoodKey key) :
    (storeCall st v key).2 = Except.ok (Cache.store st v key).2 ∧
    (Cache.store st v key).2 = key :=
  ⟨(storeCall_spec st v key n ins outs h hk).1, rfl⟩

theorem wrappers_preserve_return_witness :
    (storeCall flushdb (Value.bytes "hello") "k9").2
      = Except.ok (Cache.store flushdb (Value.bytes "hello") "k9").2 ∧
    (Cache.store flushdb (Value.bytes "hello") "k9").2 = "k9" :=
  wrappers_preserve_return flushdb (Value.bytes "hello") "k9" 0 [] []
    ⟨rfl, rfl, rfl⟩ (by decide)

/-- C4: `replay` reads the counter (zero, with no error, when the
operation was never called), pairs the stored inputs and outputs
positionally up to the shorter sequence (`zip`), and renders the
operation name, the call count, and one line per pair in call
order. -/
theorem replay_spec :
    (∀ q : String,
      replay flushdb q = Except.ok [q ++ " was called " ++ "0" ++ " times:"]) ∧
    (∀ st q c ins outs, readCount st q = Except.ok c →
      lrangeAll st (q ++ ":inputs") = Except.ok ins →
      lrangeAll st (q ++ ":outputs") = Except.ok outs →
      replay st q = Except.ok ((q ++ " was called " ++ intRepr c ++ " times:") ::
        (List.zip ins outs).map (fun p => q ++ "(*" ++ p.1 ++ ") -> " ++ p.2)) ∧
      (List.zip ins outs).length = min ins.length outs.length) ∧
    (∀ cs : List Call, (∀ c ∈ cs, GoodKey c.key) → (∀ c ∈ cs, c.ok = true) →
      replay (runCalls flushdb cs) "Cache.store"
        = Except.ok
            (("Cache.store" ++ " was called " ++ intRepr cs.length ++ " times:") ::
             cs.map (fun c =>
               "Cache.store" ++ "(*" ++ strArgs c.data ++ ") -> " ++ c.key))) := by
  have h0 : intRepr 0 = "0" := rfl
  refine ⟨?_, ?_, ?_⟩
  · intro q
    simp [replay, readCount, lrangeAll, rget, flushdb, h0]
  · intro st q c ins outs h1 h2 h3
    refine ⟨?_, (List.length_zip _ _)⟩
    simp only [replay, h1, h2, h3]
  · intro cs hg hok
    obtain ⟨hcnt, hin, hout⟩ := runCalls_inv cs hg
    have hfil : cs.filter (fun c => c.ok) = cs :=
      List.filter_eq_self.mpr (by simpa using hok)
    rw [hfil] at hout
    have hik : ("Cache.store" ++ ":inputs" : String) = "Cache.store:inputs" := rfl
    have hot : ("Cache.store" ++ ":outputs" : String) = "Cache.store:outputs" := rfl
    have e1 := readCount_cntVal hcnt
    have e2 := lrangeAll_listVal hin
    have e3 := lrangeAll_listVal hout
    simp only [replay, hik, hot, e1, e2, e3, List.zip_map', List.map_map]
    rfl

theorem replay_spec_witness :
    replay flushdb "Cache.store"
      = Except.ok ["Cache.store" ++ " was called " ++ "0" ++ " times:"] ∧
    (replay (rsetList flushdb "w:inputs" ["a", "b"]) "w"
      = Except.ok (("w" ++ " was called " ++ intRepr 0 ++ " times:") ::
          (List.zip ["a", "b"] ([] : List String)).map
            (fun p => "w" ++ "(*" ++ p.1 ++ ") -> " ++ p.2)) ∧
      (List.zip ["a", "b"] ([] : List String)).length
        = min (["a", "b"] : List String).length ([] : List String).length) ∧
    replay (runCalls flushdb [⟨Value.str "a", "k1", true⟩]) "Cache.store"
      = Except.ok
          (("Cache.store" ++ " was called "
              ++ intRepr ([⟨Value.str "a", "k1", true⟩] : List Call).length
              ++ " times:") ::
           ([⟨Value.str "a", "k1", true⟩] : List Call).map (fun c =>
             "Cache.store" ++ "(*" ++ strArgs c.data ++ ") -> " ++ c.key)) :=
  ⟨replay_spec.1 "Cache.store",
   replay_spec.2.1 (rsetList flushdb "w:inputs" ["a", "b"]) "w" 0 ["a", "b"] []
     rfl rfl rfl,
   replay_spec.2.2 [⟨Value.str "a", "k1", true⟩] (by decide) (by decide)⟩

/-- The cache key and the access-counter key of a url never
coincide. -/
lemma cached_ne_count (url : String) :
    ("cached:" ++ url) ≠ ("count:" ++ url) := by
  intro h
  have hd : ("cached:" ++ url).data = ("count:" ++ url).data := by rw [h]
  have h2 : 'c' :: 'a' :: 'c' :: 'h' :: 'e' :: 'd' :: ':' :: url.data
      = 'c' :: 'o' :: 'u' :: 'n' :: 't' :: ':' :: url.data := hd
  simp at h2

/-- C7 (counterexample): with `cached:u` present but holding the
empty string, `get_page` does not return the cached text — the falsy
check treats the hit as a miss, so it increments `count:u` and
returns the freshly fetched text instead. -/
theorem get_page_empty_cached_cex :
    (rsetex flushdb "cached:u" 10 "").data "cached:u"
      = some (RVal.str "") ∧
    (get_page (fun _ => "X") (rsetex flushdb "cached:u" 10 "") "u").2
      = Except.ok "X" ∧
    (Except.ok "X" : Except PyErr String) ≠ Except.ok "" ∧
    (rsetex flushdb "cached:u" 10 "").data "count:u" = none ∧
    ((get_page (fun _ => "X") (rsetex flushdb "cached:u" 10 "") "u").1).data
        "count:u" = some (RVal.str "1") :=
  ⟨rfl, rfl, by simp, rfl, rfl⟩

/-- C7 (amended): if `cached:<url>` is present with a non-empty
value, `get_page` returns the cached text at once, performing no
fetch, no write and no count increment (the state is unchanged, for
every fetch function); if `cached:<url>` is absent or holds the empty
value, `get_page` increments `count:<url>`, fetches, stores the
fetched text under `cached:<url>` with expiration 10 seconds, and
returns it. -/
theorem get_page_spec :
    (∀ st url s (fetch : String → String),
      rget st ("cached:" ++ url) = Except.ok (some s) → s ≠ "" →
      get_page fetch st url = (st, Except.ok s)) ∧
    (∀ st url (fetch : String → String) (n : Nat),
      (st.data ("cached:" ++ url) = none ∨
        st.data ("cached:" ++ url) = some (RVal.str "")) →
      st.data ("count:" ++ url) = cntVal n →
      (get_page fetch st url).2 = Except.ok (fetch url) ∧
      ((get_page fetch st url).1).data ("cached:" ++ url)
        = some (RVal.str (fetch url)) ∧
      ((get_page fetch st url).1).ttl ("cached:" ++ url) = some 10 ∧
      ((get_page fetch st url).1).data ("count:" ++ url)
        = some (RVal.str (intRepr (n + 1)))) := by
  constructor
  · intro st url s fetch hs hne
    simp [get_page, cache_page, hs, hne]
  · intro st url fetch n hmiss hcnt
    have e1 := rincr_cntVal hcnt
    have hbody : getPageBody fetch st url
        = (dataSet st ("count:" ++ url) (intRepr (n + 1)),
           Except.ok (fetch url)) := by
      simp [getPageBody, e1]
    have hmres : cachePageMiss 10 (getPageBody fetch) st url
        = (rsetex (dataSet st ("count:" ++ url) (intRepr (n + 1)))
             ("cached:" ++ url) 10 (fetch url),
           Except.ok (fetch url)) := by
      simp [cachePageMiss, hbody]
    have hpage : get_page fetch st url
        = (rsetex (dataSet st ("count:" ++ url) (intRepr (n + 1)))
             ("cached:" ++ url) 10 (fetch url),
           Except.ok (fetch url)) := by
      rcases hmiss with hmiss | hmiss <;>
        simp [get_page, cache_page, rget, hmiss, hmres]
    refine ⟨by rw [hpage], ?_, ?_, ?_⟩
    · rw [hpage, rsetex_data_self]
    · rw [hpage, rsetex_ttl_self]
    · rw [hpage,
        rsetex_data_of_ne _ _ _ (Ne.symm (cached_ne_count url)),
        dataSet_data_self]

theorem get_page_spec_witness :
    (get_page (fun _ => "Y") (rsetex flushdb "cached:u" 10 "page") "u"
      = (rsetex flushdb "cached:u" 10 "page", Except.ok "page")) ∧
    ((get_page (fun _ => "X") flushdb "u").2 = Except.ok "X" ∧
      ((get_page (fun _ => "X") flushdb "u").1).data "cached:u"
        = some (RVal.str "X") ∧
      ((get_page (fun _ => "X") flushdb "u").1).ttl "cached:u" = some 10 ∧
      ((get_page (fun _ => "X") flushdb "u").1).data "count:u"
        = some (RVal.str (intRepr (0 + 1)))) :=
  ⟨get_page_spec.1 (rsetex flushdb "cached:u" 10 "page") "u" "page"
      (fun _ => "Y") rfl (by decide),
   get_page_spec.2 flushdb "u" (fun _ => "X") 0 (Or.inl rfl) rfl⟩
